import Mathlib

/-
Verification of the catalog-utilities dataset-metadata transform
(create_catalog_metadata.py): a shallow embedding of the TSV-to-JSON
pipeline, followed by theorems about its parsing, accretion and
catalog-mapping behaviour.
-/

namespace CatalogUtilities

/-- Values of the dynamic (Python) data model used by the script:
strings, numbers (the provenance timestamp), lists, and
insertion-ordered dictionaries with string keys. -/
inductive Value where
  | str : String → Value
  | num : Int → Value
  | list : List Value → Value
  | dict : List (String × Value) → Value

/-- A Python dict with string keys: an association list in insertion
order, with unique keys maintained by `pySet`. -/
abbrev PyDict := List (String × Value)

/-- Lookup in an insertion-ordered string-keyed dict (Python `d.get(k)`). -/
def lookupStr {α : Type} : List (String × α) → String → Option α
  | [], _ => none
  | p :: rest, k => if p.1 = k then some p.2 else lookupStr rest k

/-- Python `d[k] = v`: update in place when the key exists, else append. -/
def pySet : PyDict → String → Value → PyDict
  | [], k, v => [(k, v)]
  | p :: rest, k, v => if p.1 = k then (k, v) :: rest else p :: pySet rest k v

/-- Python iteration over a value: a list yields its elements, a dict
yields its keys, a string yields its characters; a number is not
iterable. -/
def pyIter : Value → Except String (List Value)
  | .list l => .ok l
  | .dict l => .ok (l.map (fun p => Value.str p.1))
  | .str s => .ok (s.data.map (fun c => Value.str (String.singleton c)))
  | .num _ => .error "TypeError: int object is not iterable"

/-- Python `v.get(k, default)` without the default applied: only a
dictionary has a `.get` attribute. -/
def dictGet : Value → String → Except String (Option Value)
  | .dict l, k => .ok (lookupStr l k)
  | _, _ => .error "AttributeError: object has no attribute get"

/-- Python `v[k]` with a string subscript: KeyError on a dict missing
the key, TypeError on any non-dict value. -/
def pyIndex : Value → String → Except String Value
  | .dict l, k =>
    match lookupStr l k with
    | some v => .ok v
    | none => .error "KeyError"
  | _, _ => .error "TypeError: value cannot be indexed by a string"

/-- Python `m[k].append(v)` where `m[k]` is expected to hold a list. -/
def pyAppendAt (m : PyDict) (k : String) (v : Value) : Except String PyDict :=
  match lookupStr m k with
  | some (.list l) => .ok (pySet m k (.list (l ++ [v])))
  | some _ => .error "AttributeError: object has no attribute append"
  | none => .error "KeyError"

/-- One entry of the dataset schema (the `case` property is named
`case'` because `case` is reserved in Lean). Per the source comment,
`type` and `case'` are currently unused by the code. -/
structure SchemaEntry where
  type : String
  required : Bool
  case' : String
  columns : Option (List String)

/-- The dataset schema dict from the source, in order. -/
def dataset_schema : List (String × SchemaEntry) := [
  ("identifier", ⟨"text", true, "single", none⟩),
  ("version", ⟨"text", false, "single", none⟩),
  ("name", ⟨"text", true, "single", none⟩),
  ("description", ⟨"text", false, "single", none⟩),
  ("author", ⟨"list", false, "multiple", some ["full_name", "orcid", "email", "affiliations"]⟩),
  ("publication", ⟨"list", false, "multiple", some ["doi", "citation"]⟩),
  ("keywords", ⟨"list", false, "single", none⟩),
  ("property", ⟨"list", false, "multiple", some ["name", "value"]⟩),
  ("sfb1451", ⟨"list", false, "multiple", some ["name", "value"]⟩)]

/-- Mapping of incoming field names to catalog field names. -/
def dataset_catalog_mapping : List (String × String) := [
  ("identifier", "dataset_id"),
  ("version", "dataset_version"),
  ("name", "name"),
  ("description", "description"),
  ("author", "authors"),
  ("publication", "publications"),
  ("keywords", "keywords"),
  ("property", "top_display"),
  ("sfb1451", "additional_display")]

/-- The inverse mapping, derived mechanically as in the source. -/
def catalog_dataset_mapping : List (String × String) :=
  dataset_catalog_mapping.map (fun p => (p.2, p.1))

/-- parse_dataset_columns: decide from the number of supplied values
whether to produce a scalar, a plain list, or a column-name mapping.
Errors model the Python exceptions (KeyError on the name mapping,
IndexError on `value[0]` when no value is supplied). -/
def parse_dataset_columns (key : String) (value : List String) (item_schema : SchemaEntry) :
    Except String (String × Value) :=
  if 1 < value.length then
    match lookupStr dataset_catalog_mapping key with
    | none => .error "KeyError"
    | some catalog_key =>
      match item_schema.columns with
      | none => .ok (catalog_key, .list (value.map Value.str))
      | some columns =>
        let columns := if value.length < columns.length then columns.take value.length else columns
        .ok (catalog_key, .dict ((columns.zip value).foldl (fun m p => pySet m p.1 (.str p.2)) []))
  else
    match lookupStr dataset_catalog_mapping key with
    | none => .error "KeyError"
    | some catalog_key =>
      match value with
      | [] => .error "IndexError: list index out of range"
      | v :: _ => .ok (catalog_key, .str v)

/-- add_metadata_item: the accretion rule merging a parsed (key, value)
pair into the raw metadata record. -/
def add_metadata_item (key : String) (value : Value) (metadata : PyDict) : PyDict :=
  match lookupStr metadata key with
  | some existing =>
    match existing with
    | .list l => pySet metadata key (.list (l ++ [value]))
    | _ => pySet metadata key (.list [existing, value])
  | none => pySet metadata key value

/-- The whitespace characters stripped by Python's `str.rstrip()`
(ASCII subset; the inputs are ASCII TSV lines). -/
def isPySpace (c : Char) : Bool :=
  c = ' ' || c = '\t' || c = '\n' || c = '\r' || c = '\x0b' || c = '\x0c'

/-- Python `line.rstrip()`. -/
def pyRstrip (s : String) : String :=
  String.mk ((s.data.reverse.dropWhile isPySpace).reverse)

/-- Python `s.split('\t')` on the character list: every tab separates,
the empty string splits to `[""]`. -/
def splitTabAux : List Char → List String
  | [] => [""]
  | c :: rest =>
    if c = '\t' then "" :: splitTabAux rest
    else
      match splitTabAux rest with
      | s :: ss => String.mk (c :: s.data) :: ss
      | [] => [String.mk [c]]

/-- Python `s.split('\t')`. -/
def pySplitTab (s : String) : List String := splitTabAux s.data

/-- The body of the line loop in transform_dataset_metadata for the
line with 1-based number `i`: returns the updated record together with
the log messages emitted for this line. An unrecognized field is
skipped with an info message; any per-line exception is caught and
logged with the line number. -/
def processLine (i : Nat) (line : String) (metadata : PyDict) : PyDict × List String :=
  let l := pySplitTab (pyRstrip line)
  let key := l.headD ""
  match lookupStr dataset_schema key with
  | none => (metadata, ["non-recognized field encountered in line " ++ toString i ++ ": " ++ key])
  | some item_schema =>
    match parse_dataset_columns key l.tail item_schema with
    | .ok (catalog_key, value) => (add_metadata_item catalog_key value metadata, [])
    | .error _ => (metadata, ["Error encountered on line " ++ toString i])

/-- The line loop of transform_dataset_metadata starting after line
number `i`, with accumulated record `metadata`. -/
def buildRecordAux : Nat → PyDict → List String → PyDict × List String
  | _, metadata, [] => (metadata, [])
  | i, metadata, line :: rest =>
    let step := processLine (i + 1) line metadata
    let restResult := buildRecordAux (i + 1) step.1 rest
    (restResult.1, step.2 ++ restResult.2)

/-- The raw metadata record (and log) built from the input lines. -/
def buildRecord (lines : List String) : PyDict × List String :=
  buildRecordAux 0 [] lines

/-- The (catalog key, value) pair a single line contributes to the raw
metadata record, or `none` when the line is skipped (unrecognized
field, or a caught per-line error). -/
def lineOutcome (line : String) : Option (String × Value) :=
  let l := pySplitTab (pyRstrip line)
  let key := l.headD ""
  match lookupStr dataset_schema key with
  | none => none
  | some item_schema => (parse_dataset_columns key l.tail item_schema).toOption

/-- get_dataset_id: `input['dataset_id']`, KeyError when absent. -/
def get_dataset_id (input : PyDict) : Except String Value :=
  match lookupStr input "dataset_id" with
  | some v => .ok v
  | none => .error "KeyError: dataset_id"

mutual
/-- Python `repr` restricted to this data model (strings are rendered
between single quotes without escaping — no input in scope contains a
quote character). -/
def pyRepr : Value → String
  | .str s => "'" ++ s ++ "'"
  | .num n => toString n
  | .list l => "[" ++ pyReprList l ++ "]"
  | .dict l => "\x7b" ++ pyReprDict l ++ "\x7d"

def pyReprList : List Value → String
  | [] => ""
  | [v] => pyRepr v
  | v :: rest => pyRepr v ++ ", " ++ pyReprList rest

def pyReprDict : List (String × Value) → String
  | [] => ""
  | [(k, v)] => "'" ++ k ++ "': " ++ pyRepr v
  | (k, v) :: rest => "'" ++ k ++ "': " ++ pyRepr v ++ ", " ++ pyReprDict rest
end

/-- Python `str(v)`. -/
def pyStr : Value → String
  | .str s => s
  | v => pyRepr v

/-- get_dataset_version: `str(v)` of the stored value when the key is
present (with any value other than Python's None, which the record
never holds), else the literal "latest". -/
def get_dataset_version (input : PyDict) : String :=
  match lookupStr input "dataset_version" with
  | some v => pyStr v
  | none => "latest"

/-- get_author: builds a catalog author object from one author entry;
the `.get` calls raise AttributeError when the entry is not a dict. -/
def get_author (author : Value) : Except String Value := do
  let full_name ← dictGet author "full_name"
  let email ← dictGet author "email"
  let orcid ← dictGet author "orcid"
  let identifiers : List Value :=
    match orcid with
    | some o => [Value.dict [("type", .str "ORCID"), ("identifier", o)]]
    | none => []
  .ok (.dict [
    ("name", full_name.getD (.str "")),
    ("givenName", .str ""),
    ("familyName", .str ""),
    ("email", email.getD (.str "")),
    ("honorificSuffix", .str ""),
    ("identifiers", .list identifiers)])

/-- get_additional_display: collapse the display entries into one
content mapping via `content[d['name']] = d['value']` (the assignment
evaluates its right-hand side first). The subscripts raise on non-dict
entries or missing keys; a non-string dict key cannot arise from
parsed input and is modeled as an error. -/
def get_additional_display (display : Value) : Except String Value := do
  let items ← pyIter display
  let content ← items.foldlM (fun content d => do
    let v ← pyIndex d "value"
    let n ← pyIndex d "name"
    match n with
    | .str s => pure (pySet content s v)
    | _ => Except.error "TypeError: unhashable key") []
  match lookupStr catalog_dataset_mapping "additional_display" with
  | some nm => .ok (.dict [("name", .str nm), ("content", .dict content)])
  | none => .error "KeyError"

/-- get_publication: builds a catalog publication object from one
publication entry. -/
def get_publication (publication : Value) : Except String Value := do
  let citation ← dictGet publication "citation"
  let doi ← dictGet publication "doi"
  .ok (.dict [
    ("type", .str ""),
    ("title", citation.getD (.str "")),
    ("doi", doi.getD (.str "")),
    ("datePublished", .str ""),
    ("publicationOutlet", .str ""),
    ("authors", .list [])])

/-- get_metadata_source: the provenance block. `gitconfig` is the
injected identity source (Python: a `git config` subprocess query, an
opaque string source), `now` the injected wall clock (Python:
`datetime.now().timestamp()`, modeled as an integer timestamp). -/
def get_metadata_source (gitconfig : String → String) (now : Int) : Value :=
  .dict [
    ("key_source_map", .dict []),
    ("sources", .list [.dict [
      ("source_name", .str "manual_to_automated_addition"),
      ("source_version", .str "0.1.0"),
      ("source_time", .num now),
      ("agent_email", .str (gitconfig "user.name")),
      ("agent_name", .str (gitconfig "user.email"))]])]

/-- new_dataset_meta_item: the baseline catalog item. -/
def new_dataset_meta_item (ds_id : Value) (ds_version : String) (ds_name ds_description : Value)
    (gitconfig : String → String) (now : Int) : PyDict :=
  [("type", .str "dataset"),
   ("dataset_id", ds_id),
   ("dataset_version", .str ds_version),
   ("name", ds_name),
   ("description", ds_description),
   ("metadata_sources", get_metadata_source gitconfig now)]

/-- One iteration of the key loop in map_to_catalog: skip keys already
on the item, wrangle authors / additional_display / publications, copy
all other keys unchanged. -/
def mapStep (m : PyDict) (kv : String × Value) : Except String PyDict :=
  let key := kv.1
  if (lookupStr m key).isSome then .ok m
  else if key = "authors" then do
    let m := if (lookupStr m key).isSome then m else pySet m key (.list [])
    let items ← pyIter kv.2
    items.foldlM (fun acc author => do
      let a ← get_author author
      pyAppendAt acc key a) m
  else if key = "additional_display" then do
    let m := if (lookupStr m key).isSome then m else pySet m key (.list [])
    let d ← get_additional_display kv.2
    pyAppendAt m key d
  else if key = "publications" then do
    let m := if (lookupStr m key).isSome then m else pySet m key (.list [])
    let items ← pyIter kv.2
    items.foldlM (fun acc pub => do
      let p ← get_publication pub
      pyAppendAt acc key p) m
  else .ok (pySet m key kv.2)

/-- map_to_catalog: build the baseline item, then fold the key loop
over the raw metadata record in insertion order. -/
def map_to_catalog (metadata : PyDict) (gitconfig : String → String) (now : Int) :
    Except String PyDict := do
  let ds_id ← get_dataset_id metadata
  let meta_item := new_dataset_meta_item ds_id (get_dataset_version metadata)
    ((lookupStr metadata "name").getD (.str ""))
    ((lookupStr metadata "description").getD (.str ""))
    gitconfig now
  metadata.foldlM mapStep meta_item

/-- One character of `json.dumps` string escaping. -/
def jsonEscapeChar (c : Char) : String :=
  if c = '"' then "\\\""
  else if c = '\\' then "\\\\"
  else if c = '\n' then "\\n"
  else if c = '\t' then "\\t"
  else if c = '\r' then "\\r"
  else String.singleton c

/-- `json.dumps` string escaping. -/
def jsonEscape (s : String) : String := String.join (s.data.map jsonEscapeChar)

mutual
/-- `json.dumps` with its default separators. -/
def jsonSerialize : Value → String
  | .str s => "\"" ++ jsonEscape s ++ "\""
  | .num n => toString n
  | .list l => "[" ++ jsonSerializeList l ++ "]"
  | .dict l => "\x7b" ++ jsonSerializeDict l ++ "\x7d"

def jsonSerializeList : List Value → String
  | [] => ""
  | [v] => jsonSerialize v
  | v :: rest => jsonSerialize v ++ ", " ++ jsonSerializeList rest

def jsonSerializeDict : List (String × Value) → String
  | [] => ""
  | [(k, v)] => "\"" ++ jsonEscape k ++ "\": " ++ jsonSerialize v
  | (k, v) :: rest =>
    "\"" ++ jsonEscape k ++ "\": " ++ jsonSerialize v ++ ", " ++ jsonSerializeDict rest
end

/-- The catalog document produced by transform_dataset_metadata from
the input lines (before serialization). -/
def transformDoc (lines : List String) (gitconfig : String → String) (now : Int) :
    Except String Value :=
  (map_to_catalog (buildRecord lines).1 gitconfig now).map Value.dict

/-- transform_dataset_metadata: on success the payload is the
serialized JSON document written to the output file (and echoed to
stdout); on error the run aborts and nothing is written. -/
def transform_dataset_metadata (lines : List String) (gitconfig : String → String) (now : Int) :
    Except String String :=
  (transformDoc lines gitconfig now).map jsonSerialize

mutual
/-- Blank every `source_time` entry of a document, leaving everything
else unchanged (used to state that two runs differ at most in the
provenance timestamp). -/
def eraseSourceTime : Value → Value
  | .str s => .str s
  | .num n => .num n
  | .list l => .list (eraseSourceTimeList l)
  | .dict l => .dict (eraseSourceTimeDict l)

def eraseSourceTimeList : List Value → List Value
  | [] => []
  | v :: rest => eraseSourceTime v :: eraseSourceTimeList rest

def eraseSourceTimeDict : List (String × Value) → List (String × Value)
  | [] => []
  | p :: rest =>
    (if p.1 = "source_time" then (p.1, Value.str "") else (p.1, eraseSourceTime p.2)) ::
      eraseSourceTimeDict rest
end

/-- Whether a value is a Python list. -/
def Value.isList : Value → Bool
  | .list _ => true
  | _ => false

/-- Relate two run outcomes: equal error, or results equal up to the
provenance timestamp. -/
def ExceptErased : Except String PyDict → Except String PyDict → Prop
  | .ok m1, .ok m2 => eraseSourceTimeDict m1 = eraseSourceTimeDict m2
  | .error e1, .error e2 => e1 = e2
  | _, _ => False

/-- A concrete identity source used in counterexamples. -/
def demoGitconfig : String → String := fun s =>
  if s = "user.name" then "Alice Smith"
  else if s = "user.email" then "alice@example.org"
  else ""

/- ----------------------------------------------------------------- -/
/- Helper lemmas about the dictionary operations.                    -/
/- ----------------------------------------------------------------- -/

theorem lookupStr_pySet_self (m : PyDict) (k : String) (v : Value) :
    lookupStr (pySet m k v) k = some v := by
  induction m with
  | nil => simp [pySet, lookupStr]
  | cons p rest ih =>
    by_cases h : p.1 = k
    · simp [pySet, h, lookupStr]
    · simp [pySet, h, lookupStr, ih]

theorem lookupStr_pySet_ne (m : PyDict) (k : String) (v : Value) (k' : String) (h : k' ≠ k) :
    lookupStr (pySet m k v) k' = lookupStr m k' := by
  induction m with
  | nil => simp [pySet, lookupStr, Ne.symm h]
  | cons p rest ih =>
    by_cases hp : p.1 = k
    · subst hp
      simp [pySet, lookupStr, Ne.symm h]
    · simp [pySet, hp, lookupStr, ih]

theorem lookupStr_append {α : Type} (a b : List (String × α)) (k : String) :
    lookupStr (a ++ b) k =
      match lookupStr a k with
      | some v => some v
      | none => lookupStr b k := by
  induction a with
  | nil => simp [lookupStr]
  | cons p rest ih =>
    by_cases h : p.1 = k
    · simp [lookupStr, h]
    · simp [lookupStr, h, ih]

theorem pySet_of_lookup_none (m : PyDict) (k : String) (v : Value)
    (h : lookupStr m k = none) : pySet m k v = m ++ [(k, v)] := by
  induction m with
  | nil => simp [pySet]
  | cons p rest ih =>
    simp only [lookupStr] at h
    by_cases hp : p.1 = k
    · simp [hp] at h
    · simp only [pySet, hp, if_false, List.cons_append, List.cons.injEq, true_and]
      exact ih (by simpa [hp] using h)

theorem except_bind_ok {α β : Type} (a : α) (f : α → Except String β) :
    (Except.ok a : Except String α) >>= f = f a := rfl

theorem except_bind_error {α β : Type} (e : String) (f : α → Except String β) :
    (Except.error e : Except String α) >>= f = .error e := rfl

theorem pyAppendAt_lookup_ne (m : PyDict) (key : String) (v : Value) (m' : PyDict)
    (h : pyAppendAt m key v = .ok m') (k : String) (hk : k ≠ key) :
    lookupStr m' k = lookupStr m k := by
  unfold pyAppendAt at h
  split at h
  next l _ =>
    injection h with h
    subst h
    exact lookupStr_pySet_ne _ _ _ _ hk
  next => exact absurd h (by simp)
  next => exact absurd h (by simp)

theorem foldAppend_preserves (f : Value → Except String Value) (key : String)
    (items : List Value) : ∀ (m m' : PyDict),
    items.foldlM (fun acc x => do
      let a ← f x
      pyAppendAt acc key a) m = .ok m' →
    ∀ (k : String) (w : Value), k ≠ key → lookupStr m k = some w → lookupStr m' k = some w := by
  induction items with
  | nil =>
    intro m m' h k w hk hw
    simp only [List.foldlM_nil] at h
    injection h with h
    subst h
    exact hw
  | cons x rest ih =>
    intro m m' h k w hk hw
    rw [List.foldlM_cons] at h
    cases hfx : f x with
    | error e => rw [hfx, except_bind_error, except_bind_error] at h; exact absurd h (by simp)
    | ok a =>
      rw [hfx, except_bind_ok] at h
      cases hap : pyAppendAt m key a with
      | error e => rw [hap, except_bind_error] at h; exact absurd h (by simp)
      | ok m1 =>
        rw [hap, except_bind_ok] at h
        exact ih m1 m' h k w hk (by rw [pyAppendAt_lookup_ne m key a m1 hap k hk]; exact hw)

theorem mapStep_preserves (m : PyDict) (kv : String × Value) (m' : PyDict)
    (h : mapStep m kv = .ok m') (k : String) (w : Value) (hw : lookupStr m k = some w) :
    lookupStr m' k = some w := by
  unfold mapStep at h
  by_cases hin : (lookupStr m kv.1).isSome
  · rw [if_pos hin] at h
    injection h with h
    subst h
    exact hw
  · have hk : k ≠ kv.1 := by
      intro e
      subst e
      rw [hw] at hin
      simp at hin
    rw [if_neg hin] at h
    have hm0 : lookupStr (pySet m kv.1 (Value.list [])) k = some w := by
      rw [lookupStr_pySet_ne _ _ _ _ hk]; exact hw
    by_cases ha : kv.1 = "authors"
    · rw [if_pos ha] at h
      rw [if_neg hin] at h
      cases hit : pyIter kv.2 with
      | error e => rw [hit, except_bind_error] at h; exact absurd h (by simp)
      | ok items =>
        rw [hit, except_bind_ok] at h
        exact foldAppend_preserves get_author kv.1 items _ _ h k w hk hm0
    · rw [if_neg ha] at h
      by_cases hd : kv.1 = "additional_display"
      · rw [if_pos hd] at h
        rw [if_neg hin] at h
        cases hgd : get_additional_display kv.2 with
        | error e => rw [hgd, except_bind_error] at h; exact absurd h (by simp)
        | ok d =>
          rw [hgd, except_bind_ok] at h
          rw [pyAppendAt_lookup_ne _ _ _ _ h k hk]
          exact hm0
      · rw [if_neg hd] at h
        by_cases hp : kv.1 = "publications"
        · rw [if_pos hp] at h
          rw [if_neg hin] at h
          cases hit : pyIter kv.2 with
          | error e => rw [hit, except_bind_error] at h; exact absurd h (by simp)
          | ok items =>
            rw [hit, except_bind_ok] at h
            exact foldAppend_preserves get_publication kv.1 items _ _ h k w hk hm0
        · rw [if_neg hp] at h
          injection h with h
          subst h
          rw [lookupStr_pySet_ne _ _ _ _ hk]
          exact hw

theorem foldlM_mapStep_preserves (pairs : List (String × Value)) : ∀ (m m' : PyDict),
    pairs.foldlM mapStep m = .ok m' →
    ∀ (k : String) (w : Value), lookupStr m k = some w → lookupStr m' k = some w := by
  induction pairs with
  | nil =>
    intro m m' h k w hw
    simp only [List.foldlM_nil] at h
    injection h with h
    subst h
    exact hw
  | cons kv rest ih =>
    intro m m' h k w hw
    rw [List.foldlM_cons] at h
    cases hs : mapStep m kv with
    | error e => rw [hs, except_bind_error] at h; exact absurd h (by simp)
    | ok m1 =>
      rw [hs, except_bind_ok] at h
      exact ih m1 m' h k w (mapStep_preserves m kv m1 hs k w hw)

theorem except_map_error {α β : Type} (f : α → β) (e : String) :
    (Except.error e : Except String α).map f = .error e := rfl

theorem add_metadata_item_keeps_list :
    ∀ (merges : List (String × Value)) (m : PyDict) (key : String) (l : List Value),
    lookupStr m key = some (Value.list l) →
    ∃ l', lookupStr (merges.foldl (fun acc p => add_metadata_item p.1 p.2 acc) m) key =
      some (Value.list l') := by
  intro merges
  induction merges with
  | nil => intro m key l h; exact ⟨l, h⟩
  | cons p rest ih =>
    intro m key l h
    by_cases hp : p.1 = key
    · subst hp
      have hstep : lookupStr (add_metadata_item p.1 p.2 m) p.1 = some (Value.list (l ++ [p.2])) := by
        unfold add_metadata_item
        rw [h]
        exact lookupStr_pySet_self _ _ _
      simpa using ih (add_metadata_item p.1 p.2 m) p.1 (l ++ [p.2]) hstep
    · have hstep : lookupStr (add_metadata_item p.1 p.2 m) key = some (Value.list l) := by
        unfold add_metadata_item
        cases hl : lookupStr m p.1 with
        | none => rw [lookupStr_pySet_ne _ _ _ _ (fun e => hp e.symm)]; exact h
        | some old =>
          cases old <;>
            · simp only []
              rw [lookupStr_pySet_ne _ _ _ _ (fun e => hp e.symm)]
              exact h
      simpa using ih (add_metadata_item p.1 p.2 m) key l hstep

/- ----------------------------------------------------------------- -/
/- Claim theorems.                                                   -/
/- ----------------------------------------------------------------- -/

/-- Claim C6: the accretion rule stores a first occurrence as-is, turns
a second occurrence of a scalar-or-mapping value into the two-element
list of both values in source order, and once the stored value is a
list every later merge leaves it a list. -/
theorem accretion_rule (key : String) (v : Value) (m : PyDict) :
    (lookupStr m key = none → lookupStr (add_metadata_item key v m) key = some v) ∧
    (∀ old, lookupStr m key = some old → old.isList = false →
      lookupStr (add_metadata_item key v m) key = some (.list [old, v])) ∧
    (∀ (l : List Value) (merges : List (String × Value)),
      lookupStr m key = some (Value.list l) →
      ∃ l', lookupStr (merges.foldl (fun acc p => add_metadata_item p.1 p.2 acc) m) key =
        some (Value.list l')) := by
  refine ⟨?_, ?_, ?_⟩
  · intro h
    unfold add_metadata_item
    rw [h]
    exact lookupStr_pySet_self _ _ _
  · intro old h hnl
    unfold add_metadata_item
    rw [h]
    cases old with
    | list l => simp [Value.isList] at hnl
    | str s => exact lookupStr_pySet_self _ _ _
    | num n => exact lookupStr_pySet_self _ _ _
    | dict d => exact lookupStr_pySet_self _ _ _
  · intro l merges h
    exact add_metadata_item_keeps_list merges m key l h

theorem accretion_rule_witness :
    lookupStr (add_metadata_item "keywords" (.str "a") []) "keywords" = some (.str "a") ∧
    lookupStr (add_metadata_item "keywords" (.str "b") [("keywords", .str "a")]) "keywords" =
      some (.list [.str "a", .str "b"]) ∧
    ∃ l', lookupStr ([("name", Value.str "z"), ("keywords", Value.str "c")].foldl
        (fun acc p => add_metadata_item p.1 p.2 acc)
        [("keywords", Value.list [.str "a", .str "b"])]) "keywords" = some (Value.list l') :=
  ⟨(accretion_rule "keywords" (.str "a") []).1 rfl,
   (accretion_rule "keywords" (.str "b") [("keywords", .str "a")]).2.1 (.str "a") rfl rfl,
   (accretion_rule "keywords" (.str "x")
     [("keywords", Value.list [.str "a", .str "b"])]).2.2 [.str "a", .str "b"]
     [("name", Value.str "z"), ("keywords", Value.str "c")] rfl⟩

/-- Claim C10: a homogeneous list field (keywords) supplied with
multiple values stores the value list itself, so a second multi-value
occurrence is appended as one nested element of the existing list,
not collected into a two-element list of the two value lists. -/
theorem keywords_repeat_nested (vs ws : List String) (h1 : 1 < vs.length) (h2 : 1 < ws.length) :
    lookupStr dataset_schema "keywords" = some ⟨"list", false, "single", none⟩ ∧
    parse_dataset_columns "keywords" vs ⟨"list", false, "single", none⟩ =
      .ok ("keywords", .list (vs.map Value.str)) ∧
    parse_dataset_columns "keywords" ws ⟨"list", false, "single", none⟩ =
      .ok ("keywords", .list (ws.map Value.str)) ∧
    add_metadata_item "keywords" (.list (ws.map Value.str))
      (add_metadata_item "keywords" (.list (vs.map Value.str)) []) =
      [("keywords", Value.list (vs.map Value.str ++ [Value.list (ws.map Value.str)]))] ∧
    vs.map Value.str ++ [Value.list (ws.map Value.str)] ≠
      [Value.list (vs.map Value.str), Value.list (ws.map Value.str)] := by
  refine ⟨rfl, ?_, ?_, rfl, ?_⟩
  · unfold parse_dataset_columns
    rw [if_pos h1]
    rfl
  · unfold parse_dataset_columns
    rw [if_pos h2]
    rfl
  · intro h
    have hlen := congrArg List.length h
    simp at hlen
    omega

theorem keywords_repeat_nested_witness :
    parse_dataset_columns "keywords" ["k1", "k2"] ⟨"list", false, "single", none⟩ =
      .ok ("keywords", .list [.str "k1", .str "k2"]) ∧
    add_metadata_item "keywords" (.list [.str "k3", .str "k4"])
      (add_metadata_item "keywords" (.list [.str "k1", .str "k2"]) []) =
      [("keywords", Value.list [.str "k1", .str "k2", .list [.str "k3", .str "k4"]])] :=
  ⟨(keywords_repeat_nested ["k1", "k2"] ["k3", "k4"] (by decide) (by decide)).2.1,
   (keywords_repeat_nested ["k1", "k2"] ["k3", "k4"] (by decide) (by decide)).2.2.2.1⟩

/-- Claim C2 (code bug evaluation): the provenance block has one source
entry with the fixed name, version, timestamp and empty key_source_map,
but the identity strings land in swapped fields: agent_email holds the
user.name string and agent_name holds the user.email string. -/
theorem agent_identity_swapped :
    get_metadata_source demoGitconfig 1700000000 =
      .dict [("key_source_map", .dict []),
        ("sources", .list [.dict [
          ("source_name", .str "manual_to_automated_addition"),
          ("source_version", .str "0.1.0"),
          ("source_time", .num 1700000000),
          ("agent_email", .str "Alice Smith"),
          ("agent_name", .str "alice@example.org")]])] ∧
    demoGitconfig "user.name" = "Alice Smith" ∧
    demoGitconfig "user.email" = "alice@example.org" ∧
    ("Alice Smith" : String) ≠ "alice@example.org" :=
  ⟨rfl, rfl, rfl, by decide⟩

/-- Claim C1 (code bug evaluation): when the authors field holds a
single column-mapping (author line supplied exactly once), the key
loop iterates over the mapping's keys and get_author is applied to a
string, so the mapper raises AttributeError instead of producing an
author object; the whole run aborts. -/
theorem single_author_line_crashes :
    (buildRecord ["identifier\tDS1", "author\tJane Doe\t0000-0001-2345-6789"]).1 =
      [("dataset_id", .str "DS1"),
       ("authors", .dict [("full_name", .str "Jane Doe"), ("orcid", .str "0000-0001-2345-6789")])] ∧
    get_author (.str "full_name") = .error "AttributeError: object has no attribute get" ∧
    transform_dataset_metadata ["identifier\tDS1", "author\tJane Doe\t0000-0001-2345-6789"]
      demoGitconfig 0 = .error "AttributeError: object has no attribute get" :=
  ⟨rfl, rfl, rfl⟩

/-- Claim C3: a raw metadata record without a dataset_id key makes the
mapping step fail with a lookup error, the error propagates, and the
run produces no output (the transform returns no serialized document
to write). -/
theorem missing_dataset_id_fatal (r : PyDict) (lines : List String)
    (g : String → String) (t : Int)
    (hr : lookupStr r "dataset_id" = none)
    (hl : lookupStr (buildRecord lines).1 "dataset_id" = none) :
    map_to_catalog r g t = .error "KeyError: dataset_id" ∧
    transform_dataset_metadata lines g t = .error "KeyError: dataset_id" := by
  have hmap : ∀ (r' : PyDict), lookupStr r' "dataset_id" = none →
      map_to_catalog r' g t = .error "KeyError: dataset_id" := by
    intro r' hr'
    unfold map_to_catalog get_dataset_id
    rw [hr']
    rfl
  refine ⟨hmap r hr, ?_⟩
  unfold transform_dataset_metadata transformDoc
  rw [hmap (buildRecord lines).1 hl]
  rfl

theorem missing_dataset_id_fatal_witness :
    lookupStr (buildRecord ["name\tFoo dataset"]).1 "dataset_id" = none ∧
    map_to_catalog [("name", Value.str "Foo dataset")] demoGitconfig 0 =
      .error "KeyError: dataset_id" ∧
    transform_dataset_metadata ["name\tFoo dataset"] demoGitconfig 0 =
      .error "KeyError: dataset_id" :=
  ⟨rfl,
   (missing_dataset_id_fatal [("name", Value.str "Foo dataset")] ["name\tFoo dataset"]
     demoGitconfig 0 rfl rfl).1,
   (missing_dataset_id_fatal [("name", Value.str "Foo dataset")] ["name\tFoo dataset"]
     demoGitconfig 0 rfl rfl).2⟩

/-- Counterexample to claim C4: an additional-display field holding a
single column-mapping (one sfb1451 line) makes the reshaping iterate
the mapping's keys and subscript a string, raising TypeError: the
reshaping does raise, and the run aborts. -/
theorem additional_display_single_mapping_raises :
    (buildRecord ["identifier\tDS1", "sfb1451\tfoo\tbar"]).1 =
      [("dataset_id", .str "DS1"),
       ("additional_display", .dict [("name", .str "foo"), ("value", .str "bar")])] ∧
    map_to_catalog [("dataset_id", Value.str "DS1"),
        ("additional_display", Value.dict [("name", Value.str "foo"), ("value", Value.str "bar")])]
      demoGitconfig 0 = .error "TypeError: value cannot be indexed by a string" ∧
    transform_dataset_metadata ["identifier\tDS1", "sfb1451\tfoo\tbar"] demoGitconfig 0 =
      .error "TypeError: value cannot be indexed by a string" :=
  ⟨rfl, rfl, rfl⟩

/-- Counterexample to claim C5: a record whose dataset_version is the
empty string (present but falsy) yields dataset_version "", not
"latest". -/
theorem empty_version_not_latest :
    get_dataset_version [("dataset_id", Value.str "DS1"), ("dataset_version", Value.str "")] = "" ∧
    map_to_catalog [("dataset_id", Value.str "DS1"), ("dataset_version", Value.str "")]
      demoGitconfig 0 =
      .ok (new_dataset_meta_item (.str "DS1") "" (.str "") (.str "") demoGitconfig 0) ∧
    lookupStr (new_dataset_meta_item (.str "DS1") "" (.str "") (.str "") demoGitconfig 0)
      "dataset_version" = some (.str "") ∧
    ("" : String) ≠ "latest" :=
  ⟨rfl, rfl, rfl, by decide⟩

theorem zip_take_length {α β : Type} : ∀ (cs : List α) (vs : List β),
    (cs.take vs.length).zip vs = cs.zip vs := by
  intro cs
  induction cs with
  | nil => intro vs; simp
  | cons c cs ih =>
    intro vs
    cases vs with
    | nil => simp
    | cons v vs => simp [List.take_succ_cons, ih]

theorem mapped_zip_fst : ∀ (cs vs : List String),
    ((cs.zip vs).map (fun p => (p.1, Value.str p.2))).map Prod.fst = cs.take vs.length := by
  intro cs
  induction cs with
  | nil => intro vs; simp
  | cons c cs ih =>
    intro vs
    cases vs with
    | nil => simp
    | cons v vs => simp [List.take_succ_cons, ih]

theorem mapped_zip_snd : ∀ (cs vs : List String),
    ((cs.zip vs).map (fun p => (p.1, Value.str p.2))).map Prod.snd =
      (vs.take cs.length).map Value.str := by
  intro cs
  induction cs with
  | nil => intro vs; simp
  | cons c cs ih =>
    intro vs
    cases vs with
    | nil => simp
    | cons v vs => simp [List.take_succ_cons, ih]

theorem foldl_pySet_fresh : ∀ (ps : List (String × String)) (acc : PyDict),
    (∀ p ∈ ps, lookupStr acc p.1 = none) → (ps.map Prod.fst).Nodup →
    ps.foldl (fun m p => pySet m p.1 (.str p.2)) acc =
      acc ++ ps.map (fun p => (p.1, Value.str p.2)) := by
  intro ps
  induction ps with
  | nil => intro acc _ _; simp
  | cons p rest ih =>
    intro acc hfresh hnd
    have h1 : lookupStr acc p.1 = none := hfresh p (List.mem_cons_self _ _)
    have hnotin : p.1 ∉ rest.map Prod.fst := (List.nodup_cons.mp hnd).1
    rw [List.foldl_cons, pySet_of_lookup_none _ _ _ h1,
      ih (acc ++ [(p.1, Value.str p.2)]) ?_ (List.nodup_cons.mp hnd).2]
    · simp
    · intro q hq
      rw [lookupStr_append, hfresh q (List.mem_cons_of_mem _ hq)]
      have hne : p.1 ≠ q.1 := fun e => hnotin (e ▸ List.mem_map_of_mem Prod.fst hq)
      simp [lookupStr, hne]

theorem parse_columns_zip (k ck : String) (cs : List String) (vs : List String)
    (sch : SchemaEntry)
    (hck : lookupStr dataset_catalog_mapping k = some ck)
    (hcols : sch.columns = some cs)
    (hnd : cs.Nodup) (hv : 1 < vs.length) :
    parse_dataset_columns k vs sch =
      .ok (ck, .dict ((cs.zip vs).map (fun p => (p.1, Value.str p.2)))) := by
  unfold parse_dataset_columns
  rw [if_pos hv]
  simp only [hck, hcols]
  have hzip : (if vs.length < cs.length then cs.take vs.length else cs).zip vs = cs.zip vs := by
    split
    · exact zip_take_length cs vs
    · rfl
  rw [hzip, foldl_pySet_fresh (cs.zip vs) [] (fun p _ => rfl) ?_]
  · simp
  · have : (cs.zip vs).map Prod.fst = cs.take vs.length := by
      have := mapped_zip_fst cs vs
      rwa [List.map_map] at this
    rw [this]
    exact (List.take_sublist _ _).nodup hnd

/-- Claim C7: a recognized field whose schema defines columns, supplied
with more than one value, parses to the mapping that zips column names
to values in schema order; excess values beyond the last column are
dropped, and when fewer values are supplied than columns only the
first len(values) columns appear. -/
theorem column_zip_truncation (k : String) (sch : SchemaEntry) (cs : List String)
    (vs : List String)
    (hs : lookupStr dataset_schema k = some sch) (hc : sch.columns = some cs)
    (hv : 1 < vs.length) :
    ∃ ck, lookupStr dataset_catalog_mapping k = some ck ∧
      parse_dataset_columns k vs sch =
        .ok (ck, .dict ((cs.zip vs).map (fun p => (p.1, Value.str p.2)))) ∧
      ((cs.zip vs).map (fun p => (p.1, Value.str p.2))).map Prod.fst = cs.take vs.length ∧
      ((cs.zip vs).map (fun p => (p.1, Value.str p.2))).map Prod.snd =
        (vs.take cs.length).map Value.str := by
  simp only [dataset_schema, lookupStr] at hs
  split_ifs at hs with h1 h2 h3 h4 h5 h6 h7 h8 h9
  · injection hs with hs; subst hs; exact Option.noConfusion hc
  · injection hs with hs; subst hs; exact Option.noConfusion hc
  · injection hs with hs; subst hs; exact Option.noConfusion hc
  · injection hs with hs; subst hs; exact Option.noConfusion hc
  · injection hs with hs
    subst hs
    injection hc with hc
    subst hc
    subst h5
    exact ⟨_, rfl, parse_columns_zip _ _ _ _ _ rfl rfl (by decide) hv,
      mapped_zip_fst _ _, mapped_zip_snd _ _⟩
  · injection hs with hs
    subst hs
    injection hc with hc
    subst hc
    subst h6
    exact ⟨_, rfl, parse_columns_zip _ _ _ _ _ rfl rfl (by decide) hv,
      mapped_zip_fst _ _, mapped_zip_snd _ _⟩
  · injection hs with hs; subst hs; exact Option.noConfusion hc
  · injection hs with hs
    subst hs
    injection hc with hc
    subst hc
    subst h8
    exact ⟨_, rfl, parse_columns_zip _ _ _ _ _ rfl rfl (by decide) hv,
      mapped_zip_fst _ _, mapped_zip_snd _ _⟩
  · injection hs with hs
    subst hs
    injection hc with hc
    subst hc
    subst h9
    exact ⟨_, rfl, parse_columns_zip _ _ _ _ _ rfl rfl (by decide) hv,
      mapped_zip_fst _ _, mapped_zip_snd _ _⟩

theorem column_zip_truncation_witness :
    (∃ ck, lookupStr dataset_catalog_mapping "author" = some ck ∧
      parse_dataset_columns "author" ["Jane Doe", "0000-0001", "j@x.org", "Uni", "EXTRA"]
          ⟨"list", false, "multiple", some ["full_name", "orcid", "email", "affiliations"]⟩ =
        .ok (ck, .dict (((["full_name", "orcid", "email", "affiliations"] : List String).zip
          ["Jane Doe", "0000-0001", "j@x.org", "Uni", "EXTRA"]).map
            (fun p => (p.1, Value.str p.2)))) ∧
      ((((["full_name", "orcid", "email", "affiliations"] : List String).zip
          ["Jane Doe", "0000-0001", "j@x.org", "Uni", "EXTRA"]).map
            (fun p => (p.1, Value.str p.2))).map Prod.fst =
        (["full_name", "orcid", "email", "affiliations"] : List String).take 5) ∧
      ((((["full_name", "orcid", "email", "affiliations"] : List String).zip
          ["Jane Doe", "0000-0001", "j@x.org", "Uni", "EXTRA"]).map
            (fun p => (p.1, Value.str p.2))).map Prod.snd =
        ((["Jane Doe", "0000-0001", "j@x.org", "Uni", "EXTRA"] : List String).take 4).map
          Value.str)) ∧
    (∃ ck, lookupStr dataset_catalog_mapping "publication" = some ck ∧
      parse_dataset_columns "publication" ["10.1/abc", "Cite me"]
          ⟨"list", false, "multiple", some ["doi", "citation"]⟩ =
        .ok (ck, .dict (((["doi", "citation"] : List String).zip
          ["10.1/abc", "Cite me"]).map (fun p => (p.1, Value.str p.2)))) ∧
      ((((["doi", "citation"] : List String).zip ["10.1/abc", "Cite me"]).map
          (fun p => (p.1, Value.str p.2))).map Prod.fst =
        (["doi", "citation"] : List String).take 2) ∧
      ((((["doi", "citation"] : List String).zip ["10.1/abc", "Cite me"]).map
          (fun p => (p.1, Value.str p.2))).map Prod.snd =
        ((["10.1/abc", "Cite me"] : List String).take 2).map Value.str)) :=
  ⟨column_zip_truncation "author" ⟨"list", false, "multiple",
      some ["full_name", "orcid", "email", "affiliations"]⟩
      ["full_name", "orcid", "email", "affiliations"]
      ["Jane Doe", "0000-0001", "j@x.org", "Uni", "EXTRA"] rfl rfl (by decide),
   column_zip_truncation "publication" ⟨"list", false, "multiple", some ["doi", "citation"]⟩
      ["doi", "citation"] ["10.1/abc", "Cite me"] rfl rfl (by decide)⟩

/-- Amended claim C5: the baseline item's dataset_version is "latest"
exactly when the record's dataset_version key is absent; a present
string value — including the falsy empty string — is kept verbatim;
name and description default to the empty string when absent. -/
theorem dataset_version_default_amended (r : PyDict) (g : String → String) (t : Int)
    (d : PyDict) (hok : map_to_catalog r g t = .ok d) :
    (lookupStr r "dataset_version" = none →
      lookupStr d "dataset_version" = some (.str "latest")) ∧
    (∀ s, lookupStr r "dataset_version" = some (.str s) →
      lookupStr d "dataset_version" = some (.str s)) ∧
    (lookupStr r "name" = none → lookupStr d "name" = some (.str "")) ∧
    (lookupStr r "description" = none → lookupStr d "description" = some (.str "")) := by
  have heq : map_to_catalog r g t =
      get_dataset_id r >>= fun ds_id =>
        List.foldlM mapStep
          (new_dataset_meta_item ds_id (get_dataset_version r)
            ((lookupStr r "name").getD (.str ""))
            ((lookupStr r "description").getD (.str "")) g t) r := rfl
  rw [heq] at hok
  cases hgd : get_dataset_id r with
  | error e => rw [hgd, except_bind_error] at hok; exact absurd hok (by simp)
  | ok idv =>
    rw [hgd, except_bind_ok] at hok
    have hbase := foldlM_mapStep_preserves r _ d hok
    refine ⟨?_, ?_, ?_, ?_⟩
    · intro hv
      have hlat : get_dataset_version r = "latest" := by unfold get_dataset_version; rw [hv]
      rw [← hlat]
      exact hbase "dataset_version" _ rfl
    · intro s hv
      have hver : get_dataset_version r = s := by unfold get_dataset_version; rw [hv]; rfl
      rw [← hver]
      exact hbase "dataset_version" _ rfl
    · intro hn
      have hdef : (lookupStr r "name").getD (Value.str "") = Value.str "" := by rw [hn]; rfl
      rw [← hdef]
      exact hbase "name" _ rfl
    · intro hn
      have hdef : (lookupStr r "description").getD (Value.str "") = Value.str "" := by
        rw [hn]; rfl
      rw [← hdef]
      exact hbase "description" _ rfl

theorem dataset_version_default_amended_witness :
    map_to_catalog (buildRecord ["identifier\tDS001"]).1 demoGitconfig 0 =
      .ok (new_dataset_meta_item (.str "DS001") "latest" (.str "") (.str "") demoGitconfig 0) ∧
    lookupStr (new_dataset_meta_item (.str "DS001") "latest" (.str "") (.str "")
      demoGitconfig 0) "dataset_id" = some (.str "DS001") ∧
    lookupStr (new_dataset_meta_item (.str "DS001") "latest" (.str "") (.str "")
      demoGitconfig 0) "dataset_version" = some (.str "latest") ∧
    lookupStr (new_dataset_meta_item (.str "DS001") "latest" (.str "") (.str "")
      demoGitconfig 0) "name" = some (.str "") :=
  ⟨rfl,
   rfl,
   (dataset_version_default_amended (buildRecord ["identifier\tDS001"]).1 demoGitconfig 0
     (new_dataset_meta_item (.str "DS001") "latest" (.str "") (.str "") demoGitconfig 0)
     rfl).1 rfl,
   (dataset_version_default_amended (buildRecord ["identifier\tDS001"]).1 demoGitconfig 0
     (new_dataset_meta_item (.str "DS001") "latest" (.str "") (.str "") demoGitconfig 0)
     rfl).2.2.1 rfl⟩

theorem gad_content_fold : ∀ (ps : List (String × String)) (c : PyDict),
    (ps.map (fun p => Value.dict [("name", Value.str p.1), ("value", Value.str p.2)])).foldlM
      (fun content d => do
        let v ← pyIndex d "value"
        let n ← pyIndex d "name"
        match n with
        | .str s => pure (pySet content s v)
        | _ => Except.error "TypeError: unhashable key") c =
      .ok (ps.foldl (fun c p => pySet c p.1 (Value.str p.2)) c) := by
  intro ps
  induction ps with
  | nil => intro c; rfl
  | cons p rest ih =>
    intro c
    rw [List.map_cons, List.foldlM_cons]
    show (Except.ok (pySet c p.1 (Value.str p.2)) : Except String PyDict) >>= _ = _
    rw [except_bind_ok, List.foldl_cons]
    exact ih _

/-- The collapse performed by get_additional_display on a list of
complete name/value mappings. -/
theorem gad_collapse (ps : List (String × String)) :
    get_additional_display
        (.list (ps.map (fun p => Value.dict [("name", .str p.1), ("value", .str p.2)]))) =
      .ok (.dict [("name", .str "sfb1451"),
        ("content", .dict (ps.foldl (fun c p => pySet c p.1 (Value.str p.2)) []))]) := by
  have heq : get_additional_display
      (.list (ps.map (fun p => Value.dict [("name", .str p.1), ("value", .str p.2)]))) =
      ((ps.map (fun p => Value.dict [("name", Value.str p.1), ("value", Value.str p.2)])).foldlM
        (fun content d => do
          let v ← pyIndex d "value"
          let n ← pyIndex d "name"
          match n with
          | .str s => pure (pySet content s v)
          | _ => Except.error "TypeError: unhashable key") []) >>= fun content =>
        Except.ok (.dict [("name", .str "sfb1451"), ("content", .dict content)]) := rfl
  rw [heq, gad_content_fold ps [], except_bind_ok]

/-- Amended claim C4: when the organization-specific display field
holds a list of complete {name, value} mappings (the shape produced by
supplying the field more than once), the mapper collapses the entries
into one content mapping keyed by each entry's name and appends the
single wrapped object to a one-element additional_display list; a
single mapping or an entry lacking sub-fields instead raises. -/
theorem additional_display_list_collapse (ps : List (String × String)) (idv : Value)
    (g : String → String) (t : Int) :
    get_additional_display
        (.list (ps.map (fun p => Value.dict [("name", .str p.1), ("value", .str p.2)]))) =
      .ok (.dict [("name", .str "sfb1451"),
        ("content", .dict (ps.foldl (fun c p => pySet c p.1 (Value.str p.2)) []))]) ∧
    map_to_catalog [("dataset_id", idv),
        ("additional_display",
          .list (ps.map (fun p => Value.dict [("name", .str p.1), ("value", .str p.2)])))] g t =
      .ok (new_dataset_meta_item idv "latest" (.str "") (.str "") g t ++
        [("additional_display", Value.list [.dict [("name", .str "sfb1451"),
          ("content", .dict (ps.foldl (fun c p => pySet c p.1 (Value.str p.2)) []))]])]) := by
  refine ⟨gad_collapse ps, ?_⟩
  have hchain : map_to_catalog [("dataset_id", idv),
      ("additional_display",
        .list (ps.map (fun p => Value.dict [("name", .str p.1), ("value", .str p.2)])))] g t =
      (get_additional_display
        (.list (ps.map (fun p => Value.dict [("name", .str p.1), ("value", .str p.2)]))) >>=
        fun dd =>
          pyAppendAt (pySet (new_dataset_meta_item idv "latest" (.str "") (.str "") g t)
            "additional_display" (.list [])) "additional_display" dd) >>= fun m2 =>
        pure m2 := rfl
  rw [hchain, gad_collapse ps, except_bind_ok]
  rfl

theorem processLine_fst (i : Nat) (line : String) (m : PyDict) :
    (processLine i line m).1 =
      match lineOutcome line with
      | some p => add_metadata_item p.1 p.2 m
      | none => m := by
  simp only [processLine, lineOutcome]
  cases hsch : lookupStr dataset_schema ((pySplitTab (pyRstrip line)).headD "") with
  | none => rfl
  | some sch =>
    show (match parse_dataset_columns ((pySplitTab (pyRstrip line)).headD "")
        (pySplitTab (pyRstrip line)).tail sch with
      | Except.ok (catalog_key, value) => (add_metadata_item catalog_key value m, ([] : List String))
      | Except.error _ => (m, ["Error encountered on line " ++ toString i])).1 =
      match (parse_dataset_columns ((pySplitTab (pyRstrip line)).headD "")
        (pySplitTab (pyRstrip line)).tail sch).toOption with
      | some p => add_metadata_item p.1 p.2 m
      | none => m
    cases hp : parse_dataset_columns ((pySplitTab (pyRstrip line)).headD "")
        (pySplitTab (pyRstrip line)).tail sch with
    | ok p => rfl
    | error e => rfl

theorem buildRecordAux_record : ∀ (lines : List String) (n : Nat) (m : PyDict),
    (buildRecordAux n m lines).1 =
      (lines.filterMap lineOutcome).foldl (fun acc p => add_metadata_item p.1 p.2 acc) m := by
  intro lines
  induction lines with
  | nil => intro n m; rfl
  | cons line rest ih =>
    intro n m
    show (buildRecordAux (n + 1) (processLine (n + 1) line m).1 rest).1 = _
    rw [ih, processLine_fst]
    cases ho : lineOutcome line with
    | none => simp [List.filterMap_cons, ho]
    | some p => simp [List.filterMap_cons, ho]

theorem buildRecordAux_log_mem : ∀ (pre : List String) (line : String) (suf : List String)
    (n : Nat) (m : PyDict) (sch : SchemaEntry) (e : String),
    lookupStr dataset_schema ((pySplitTab (pyRstrip line)).headD "") = some sch →
    parse_dataset_columns ((pySplitTab (pyRstrip line)).headD "")
      (pySplitTab (pyRstrip line)).tail sch = .error e →
    ("Error encountered on line " ++ toString (n + pre.length + 1)) ∈
      (buildRecordAux n m (pre ++ line :: suf)).2 := by
  intro pre
  induction pre with
  | nil =>
    intro line suf n m sch e hsch herr
    have hlog : (processLine (n + 1) line m).2 =
        ["Error encountered on line " ++ toString (n + 1)] := by
      simp only [processLine]
      rw [hsch]
      show (match parse_dataset_columns ((pySplitTab (pyRstrip line)).headD "")
          (pySplitTab (pyRstrip line)).tail sch with
        | Except.ok (catalog_key, value) => (add_metadata_item catalog_key value m, ([] : List String))
        | Except.error _ => (m, ["Error encountered on line " ++ toString (n + 1)])).2 =
        ["Error encountered on line " ++ toString (n + 1)]
      rw [herr]
    show _ ∈ ((processLine (n + 1) line m).2 ++ (buildRecordAux (n + 1) _ suf).2)
    rw [hlog]
    simp
  | cons p pre' ih =>
    intro line suf n m sch e hsch herr
    have hrec := ih line suf (n + 1) ((processLine (n + 1) p m).1) sch e hsch herr
    have harith : n + 1 + pre'.length + 1 = n + (pre'.length + 1) + 1 := by omega
    rw [harith] at hrec
    show _ ∈ ((processLine (n + 1) p m).2 ++
      (buildRecordAux (n + 1) (processLine (n + 1) p m).1 (pre' ++ line :: suf)).2)
    simp only [List.length_cons]
    exact List.mem_append_right _ hrec

/-- Claim C8: every per-line failure is contained: an unrecognized
field contributes nothing, a line whose parse raises is skipped and
logged with its 1-based line number, and the final raw metadata record
equals the record built from only the successfully processed
recognized lines. -/
theorem per_line_error_containment (lines : List String) :
    ((buildRecord lines).1 =
      (lines.filterMap lineOutcome).foldl (fun acc p => add_metadata_item p.1 p.2 acc) []) ∧
    (∀ line, lookupStr dataset_schema ((pySplitTab (pyRstrip line)).headD "") = none →
      lineOutcome line = none) ∧
    (∀ (pre : List String) (line : String) (suf : List String) (sch : SchemaEntry) (e : String),
      lines = pre ++ line :: suf →
      lookupStr dataset_schema ((pySplitTab (pyRstrip line)).headD "") = some sch →
      parse_dataset_columns ((pySplitTab (pyRstrip line)).headD "")
        (pySplitTab (pyRstrip line)).tail sch = .error e →
      ("Error encountered on line " ++ toString (pre.length + 1)) ∈ (buildRecord lines).2) := by
  refine ⟨buildRecordAux_record lines 0 [], ?_, ?_⟩
  · intro line h
    simp only [lineOutcome]
    rw [h]
  · intro pre line suf sch e hsplit hsch herr
    subst hsplit
    have := buildRecordAux_log_mem pre line suf 0 [] sch e hsch herr
    simpa using this

theorem per_line_error_containment_witness :
    ((buildRecord ["identifier\tDS1", "version", "bogus\tx"]).1 =
      ((["identifier\tDS1", "version", "bogus\tx"] : List String).filterMap lineOutcome).foldl
        (fun acc p => add_metadata_item p.1 p.2 acc) []) ∧
    lineOutcome "bogus\tx" = none ∧
    ("Error encountered on line " ++ toString 2) ∈
      (buildRecord ["identifier\tDS1", "version", "bogus\tx"]).2 :=
  ⟨(per_line_error_containment ["identifier\tDS1", "version", "bogus\tx"]).1,
   (per_line_error_containment ["identifier\tDS1", "version", "bogus\tx"]).2.1 "bogus\tx" rfl,
   (per_line_error_containment ["identifier\tDS1", "version", "bogus\tx"]).2.2
     ["identifier\tDS1"] "version" ["bogus\tx"] ⟨"text", false, "single", none⟩
     "IndexError: list index out of range" rfl rfl rfl⟩

theorem eraseSourceTimeList_append (a b : List Value) :
    eraseSourceTimeList (a ++ b) = eraseSourceTimeList a ++ eraseSourceTimeList b := by
  induction a with
  | nil => rfl
  | cons v rest ih => exact congrArg (List.cons (eraseSourceTime v)) ih

theorem eraseEntry_fst (p : String × Value) :
    (if p.1 = "source_time" then (p.1, Value.str "") else (p.1, eraseSourceTime p.2)).1 = p.1 := by
  split <;> rfl

theorem lookupStr_erase (m : PyDict) (k : String) :
    lookupStr (eraseSourceTimeDict m) k =
      (lookupStr m k).map
        (fun v => if k = "source_time" then Value.str "" else eraseSourceTime v) := by
  induction m with
  | nil => rfl
  | cons p rest ih =>
    show (if (if p.1 = "source_time" then (p.1, Value.str "")
        else (p.1, eraseSourceTime p.2)).1 = k then
        some (if p.1 = "source_time" then (p.1, Value.str "")
          else (p.1, eraseSourceTime p.2)).2
      else lookupStr (eraseSourceTimeDict rest) k) = _
    rw [eraseEntry_fst]
    by_cases hk : p.1 = k
    · rw [if_pos hk]
      show _ = Option.map _ (if p.1 = k then some p.2 else lookupStr rest k)
      rw [if_pos hk]
      by_cases hst : p.1 = "source_time"
      · have hkst : k = "source_time" := by rw [← hk, hst]
        rw [if_pos hst]
        simp [hkst]
      · have hkst : ¬k = "source_time" := by rw [← hk]; exact hst
        rw [if_neg hst]
        simp [hkst]
    · rw [if_neg hk]
      show _ = Option.map _ (if p.1 = k then some p.2 else lookupStr rest k)
      rw [if_neg hk]
      exact ih

theorem erase_pySet (m : PyDict) (k : String) (v : Value) :
    eraseSourceTimeDict (pySet m k v) =
      pySet (eraseSourceTimeDict m) k
        (if k = "source_time" then Value.str "" else eraseSourceTime v) := by
  induction m with
  | nil =>
    by_cases hst : k = "source_time" <;> simp [pySet, eraseSourceTimeDict, hst]
  | cons p rest ih =>
    by_cases hk : p.1 = k
    · simp only [pySet, if_pos hk]
      show (if k = "source_time" then (k, Value.str "") else (k, eraseSourceTime v)) ::
          eraseSourceTimeDict rest = _
      show _ = pySet ((if p.1 = "source_time" then (p.1, Value.str "")
          else (p.1, eraseSourceTime p.2)) :: eraseSourceTimeDict rest) k _
      simp only [pySet, eraseEntry_fst, if_pos hk]
      by_cases hst : k = "source_time" <;> simp [hst]
    · simp only [pySet, if_neg hk]
      show (if p.1 = "source_time" then (p.1, Value.str "") else (p.1, eraseSourceTime p.2)) ::
          eraseSourceTimeDict (pySet rest k v) = _
      show _ = pySet ((if p.1 = "source_time" then (p.1, Value.str "")
          else (p.1, eraseSourceTime p.2)) :: eraseSourceTimeDict rest) k _
      simp only [pySet, eraseEntry_fst, if_neg hk]
      exact congrArg _ ih

theorem isSome_erase (m : PyDict) (k : String) :
    (lookupStr (eraseSourceTimeDict m) k).isSome = (lookupStr m k).isSome := by
  rw [lookupStr_erase]
  cases lookupStr m k <;> rfl

theorem erase_isList (v : Value) : (eraseSourceTime v).isList = v.isList := by
  cases v <;> rfl

theorem pyAppendAt_erased (m1 m2 : PyDict) (k : String) (v : Value)
    (h : eraseSourceTimeDict m1 = eraseSourceTimeDict m2) (hk : k ≠ "source_time") :
    ExceptErased (pyAppendAt m1 k v) (pyAppendAt m2 k v) := by
  have hmap : (lookupStr m1 k).map (fun w => eraseSourceTime w) =
      (lookupStr m2 k).map (fun w => eraseSourceTime w) := by
    have h1 := lookupStr_erase m1 k
    have h2 := lookupStr_erase m2 k
    simp only [if_neg hk] at h1 h2
    rw [← h1, ← h2, h]
  unfold pyAppendAt
  cases hl1 : lookupStr m1 k with
  | none =>
    cases hl2 : lookupStr m2 k with
    | none => exact rfl
    | some w2 => rw [hl1, hl2] at hmap; exact absurd hmap (by simp)
  | some w1 =>
    cases hl2 : lookupStr m2 k with
    | none => rw [hl1, hl2] at hmap; exact absurd hmap (by simp)
    | some w2 =>
      rw [hl1, hl2] at hmap
      simp only [Option.map] at hmap
      injection hmap with hval
      cases w1 with
      | list l1 =>
        cases w2 with
        | list l2 =>
          have hll : eraseSourceTimeList l1 = eraseSourceTimeList l2 := by
            have : Value.list (eraseSourceTimeList l1) = Value.list (eraseSourceTimeList l2) :=
              hval
            injection this
          show eraseSourceTimeDict (pySet m1 k (.list (l1 ++ [v]))) =
            eraseSourceTimeDict (pySet m2 k (.list (l2 ++ [v])))
          rw [erase_pySet, erase_pySet, h, if_neg hk, if_neg hk]
          show pySet _ k (Value.list (eraseSourceTimeList (l1 ++ [v]))) =
            pySet _ k (Value.list (eraseSourceTimeList (l2 ++ [v])))
          rw [eraseSourceTimeList_append, eraseSourceTimeList_append, hll]
        | str s => exact Value.noConfusion hval
        | num n => exact Value.noConfusion hval
        | dict d => exact Value.noConfusion hval
      | str s =>
        cases w2 with
        | list l2 => exact Value.noConfusion hval
        | str s2 => exact rfl
        | num n2 => exact rfl
        | dict d2 => exact rfl
      | num n =>
        cases w2 with
        | list l2 => exact Value.noConfusion hval
        | str s2 => exact rfl
        | num n2 => exact rfl
        | dict d2 => exact rfl
      | dict d =>
        cases w2 with
        | list l2 => exact Value.noConfusion hval
        | str s2 => exact rfl
        | num n2 => exact rfl
        | dict d2 => exact rfl

theorem foldAppend_erased (f : Value → Except String Value) (key : String)
    (hk : key ≠ "source_time") (items : List Value) : ∀ (m1 m2 : PyDict),
    eraseSourceTimeDict m1 = eraseSourceTimeDict m2 →
    ExceptErased
      (items.foldlM (fun acc x => do
        let a ← f x
        pyAppendAt acc key a) m1)
      (items.foldlM (fun acc x => do
        let a ← f x
        pyAppendAt acc key a) m2) := by
  induction items with
  | nil => intro m1 m2 h; exact h
  | cons x rest ih =>
    intro m1 m2 h
    simp only [List.foldlM_cons]
    cases hfx : f x with
    | error e =>
      simp only [except_bind_error]
      exact rfl
    | ok a =>
      simp only [except_bind_ok]
      have hap := pyAppendAt_erased m1 m2 key a h hk
      cases h1 : pyAppendAt m1 key a with
      | error e1 =>
        cases h2 : pyAppendAt m2 key a with
        | error e2 =>
          rw [h1, h2] at hap
          simp only [except_bind_error]
          exact hap
        | ok n2 => rw [h1, h2] at hap; exact absurd hap (by simp [ExceptErased])
      | ok n1 =>
        cases h2 : pyAppendAt m2 key a with
        | error e2 => rw [h1, h2] at hap; exact absurd hap (by simp [ExceptErased])
        | ok n2 =>
          rw [h1, h2] at hap
          simp only [except_bind_ok]
          exact ih n1 n2 hap

theorem mapStep_erased (m1 m2 : PyDict) (kv : String × Value)
    (h : eraseSourceTimeDict m1 = eraseSourceTimeDict m2) :
    ExceptErased (mapStep m1 kv) (mapStep m2 kv) := by
  unfold mapStep
  have hsome : (lookupStr m1 kv.1).isSome = (lookupStr m2 kv.1).isSome := by
    rw [← isSome_erase m1, ← isSome_erase m2, h]
  by_cases hin : (lookupStr m1 kv.1).isSome
  · rw [if_pos hin, if_pos (hsome ▸ hin)]
    exact h
  · have hin2 : ¬(lookupStr m2 kv.1).isSome = true := by rw [← hsome]; exact hin
    rw [if_neg hin, if_neg hin2]
    have hset : eraseSourceTimeDict (pySet m1 kv.1 (Value.list [])) =
        eraseSourceTimeDict (pySet m2 kv.1 (Value.list [])) := by
      rw [erase_pySet, erase_pySet, h]
    by_cases hA : kv.1 = "authors"
    · rw [if_pos hA, if_pos hA, if_neg hin, if_neg hin2]
      cases hit : pyIter kv.2 with
      | error e => simp only [except_bind_error]; exact rfl
      | ok items =>
        simp only [except_bind_ok]
        have hkst : kv.1 ≠ "source_time" := by rw [hA]; decide
        exact foldAppend_erased get_author kv.1 hkst items _ _ hset
    · rw [if_neg hA, if_neg hA]
      by_cases hD : kv.1 = "additional_display"
      · rw [if_pos hD, if_pos hD, if_neg hin, if_neg hin2]
        cases hgd : get_additional_display kv.2 with
        | error e => simp only [except_bind_error]; exact rfl
        | ok dd =>
          simp only [except_bind_ok]
          have hkst : kv.1 ≠ "source_time" := by rw [hD]; decide
          exact pyAppendAt_erased _ _ kv.1 dd hset hkst
      · rw [if_neg hD, if_neg hD]
        by_cases hP : kv.1 = "publications"
        · rw [if_pos hP, if_pos hP, if_neg hin, if_neg hin2]
          cases hit : pyIter kv.2 with
          | error e => simp only [except_bind_error]; exact rfl
          | ok items =>
            simp only [except_bind_ok]
            have hkst : kv.1 ≠ "source_time" := by rw [hP]; decide
            exact foldAppend_erased get_publication kv.1 hkst items _ _ hset
        · rw [if_neg hP, if_neg hP]
          show eraseSourceTimeDict (pySet m1 kv.1 kv.2) =
            eraseSourceTimeDict (pySet m2 kv.1 kv.2)
          rw [erase_pySet, erase_pySet, h]

theorem foldlM_mapStep_erased : ∀ (pairs : List (String × Value)) (m1 m2 : PyDict),
    eraseSourceTimeDict m1 = eraseSourceTimeDict m2 →
    ExceptErased (pairs.foldlM mapStep m1) (pairs.foldlM mapStep m2) := by
  intro pairs
  induction pairs with
  | nil => intro m1 m2 h; exact h
  | cons kv rest ih =>
    intro m1 m2 h
    simp only [List.foldlM_cons]
    have hstep := mapStep_erased m1 m2 kv h
    cases h1 : mapStep m1 kv with
    | error e1 =>
      cases h2 : mapStep m2 kv with
      | error e2 =>
        rw [h1, h2] at hstep
        simp only [except_bind_error]
        exact hstep
      | ok n2 => rw [h1, h2] at hstep; exact absurd hstep (by simp [ExceptErased])
    | ok n1 =>
      cases h2 : mapStep m2 kv with
      | error e2 => rw [h1, h2] at hstep; exact absurd hstep (by simp [ExceptErased])
      | ok n2 =>
        rw [h1, h2] at hstep
        simp only [except_bind_ok]
        exact ih n1 n2 hstep

theorem base_erased (idv : Value) (ver : String) (nm dsc : Value) (g : String → String)
    (t1 t2 : Int) :
    eraseSourceTimeDict (new_dataset_meta_item idv ver nm dsc g t1) =
      eraseSourceTimeDict (new_dataset_meta_item idv ver nm dsc g t2) := by
  simp [new_dataset_meta_item, get_metadata_source, eraseSourceTimeDict, eraseSourceTime,
    eraseSourceTimeList]

theorem exceptErased_map_dict {a b : Except String PyDict} (h : ExceptErased a b) :
    (a.map Value.dict).map eraseSourceTime = (b.map Value.dict).map eraseSourceTime := by
  cases a with
  | error e1 =>
    cases b with
    | error e2 => exact congrArg Except.error h
    | ok d2 => exact absurd h (by simp [ExceptErased])
  | ok d1 =>
    cases b with
    | error e2 => exact absurd h (by simp [ExceptErased])
    | ok d2 => exact congrArg (fun l => Except.ok (Value.dict l)) h

theorem map_serialize_of_map_erase {a b : Except String Value}
    (h : a.map eraseSourceTime = b.map eraseSourceTime) :
    a.map (fun v => jsonSerialize (eraseSourceTime v)) =
      b.map (fun v => jsonSerialize (eraseSourceTime v)) := by
  cases a with
  | error e1 =>
    cases b with
    | error e2 =>
      simp only [Except.map] at h ⊢
      injection h with he
      rw [he]
    | ok v2 => simp [Except.map] at h
  | ok v1 =>
    cases b with
    | error e2 => simp [Except.map] at h
    | ok v2 =>
      simp only [Except.map] at h ⊢
      injection h with hv
      rw [hv]

/-- Claim C9: with the identity source and clock fixed, the dataset
transform is a pure function of the input lines (two runs coincide);
with a varying clock, the produced documents — and hence their
serializations — agree once the source_time field is blanked, i.e.
they differ at most in the provenance timestamp. -/
theorem transform_deterministic_modulo_timestamp (lines : List String)
    (g : String → String) (t1 t2 : Int) :
    transform_dataset_metadata lines g t1 = transform_dataset_metadata lines g t1 ∧
    (transformDoc lines g t1).map eraseSourceTime =
      (transformDoc lines g t2).map eraseSourceTime ∧
    (transformDoc lines g t1).map (fun v => jsonSerialize (eraseSourceTime v)) =
      (transformDoc lines g t2).map (fun v => jsonSerialize (eraseSourceTime v)) := by
  have hdoc : (transformDoc lines g t1).map eraseSourceTime =
      (transformDoc lines g t2).map eraseSourceTime := by
    unfold transformDoc
    generalize (buildRecord lines).1 = r
    rw [show map_to_catalog r g t1 =
        get_dataset_id r >>= fun ds_id =>
          List.foldlM mapStep
            (new_dataset_meta_item ds_id (get_dataset_version r)
              ((lookupStr r "name").getD (.str ""))
              ((lookupStr r "description").getD (.str "")) g t1) r from rfl]
    rw [show map_to_catalog r g t2 =
        get_dataset_id r >>= fun ds_id =>
          List.foldlM mapStep
            (new_dataset_meta_item ds_id (get_dataset_version r)
              ((lookupStr r "name").getD (.str ""))
              ((lookupStr r "description").getD (.str "")) g t2) r from rfl]
    cases hid : get_dataset_id r with
    | error e => rfl
    | ok idv =>
      simp only [except_bind_ok]
      exact exceptErased_map_dict
        (foldlM_mapStep_erased r _ _ (base_erased idv (get_dataset_version r) _ _ g t1 t2))
  exact ⟨rfl, hdoc, map_serialize_of_map_erase hdoc⟩

end CatalogUtilities
